import Mathlib

/-!
Verification of the forge-backend Autonomy V2 core against its
natural-language specification.

The Python sources are shallowly embedded as Lean definitions:

* Python dicts become association lists `List (String × β)` (keys unique);
  dict assignment `d[k] = v` is `aset`, lookup `d.get(k)` is `alookup`.
* Timestamps are modelled by their value at second precision: epoch seconds
  (`Nat`) for the lease store, which compares epochs, and opaque strings for
  the ticker and event rows, which only ever copy or compare them.
* Each call to Python's `_now()` within one operation is modelled by a single
  `now` parameter of that operation.
* SQL statements are embedded by their semantics over the table contents.

Sources embedded: `forge/autonomy/graph_tick_v2.py`,
`forge/autonomy/leases/lease_store.py`, `forge/autonomy/events/event_bus_v2.py`,
`forge/autonomy/config/kill_switch_v2.py`, `forge/autonomy/api_v2.py`,
`forge/autonomy/worker_v2.py`, `forge/autonomy/audit/audit_log.py`,
`forge/app.py`.
-/

namespace ForgeV2

/-! ### Association-list model of Python dicts -/

/-- `d.get(k)`: first binding of key `k`, if any. -/
def alookup {β : Type} (l : List (String × β)) (k : String) : Option β :=
  match l.find? (fun p => decide (p.1 = k)) with
  | some p => some p.2
  | none => none

/-- `d[k] = v`: replace the binding in place, or append it if absent
(Python dict assignment preserves insertion order). -/
def aset {β : Type} (l : List (String × β)) (k : String) (v : β) :
    List (String × β) :=
  match l with
  | [] => [(k, v)]
  | (k', v') :: rest =>
      if k' = k then (k, v) :: rest else (k', v') :: aset rest k v

theorem alookup_nil {β : Type} (k : String) : alookup ([] : List (String × β)) k = none := rfl

theorem alookup_cons {β : Type} (k' : String) (v' : β) (rest : List (String × β)) (k : String) :
    alookup ((k', v') :: rest) k = if k' = k then some v' else alookup rest k := by
  by_cases h : k' = k <;> simp [alookup, List.find?, h]

theorem alookup_aset_self {β : Type} (l : List (String × β)) (k : String) (v : β) :
    alookup (aset l k v) k = some v := by
  induction l with
  | nil => simp [aset, alookup_cons]
  | cons p rest ih =>
      obtain ⟨pk, pv⟩ := p
      by_cases h : pk = k
      · simp [aset, h, alookup_cons]
      · simp [aset, h, alookup_cons, ih]

theorem alookup_aset_other {β : Type} (l : List (String × β)) (k k' : String) (v : β)
    (hne : k' ≠ k) : alookup (aset l k v) k' = alookup l k' := by
  have hkk : ¬ k = k' := fun h => hne h.symm
  induction l with
  | nil => simp [aset, alookup_cons, alookup_nil, hkk]
  | cons p rest ih =>
      obtain ⟨pk, pv⟩ := p
      by_cases h : pk = k
      · subst h
        simp [aset, alookup_cons, hkk]
      · simp only [aset, if_neg h, alookup_cons, ih]

/-! ### Byte-wise string order (Python `sorted` / SQLite binary collation) -/

/-- Lexicographic comparison of char lists by code point. -/
def charListLe : List Char → List Char → Bool
  | [], _ => true
  | _ :: _, [] => false
  | a :: as, b :: bs =>
      if a < b then true else if b < a then false else charListLe as bs

/-- `a <= b` on strings, lexicographic by code point: the order used by
Python string comparison and by SQLite binary collation on TEXT. -/
def strLe (a b : String) : Bool := charListLe a.data b.data

theorem charListLe_total (a b : List Char) :
    charListLe a b = true ∨ charListLe b a = true := by
  induction a generalizing b with
  | nil => left; rfl
  | cons x xs ih =>
      cases b with
      | nil => right; rfl
      | cons y ys =>
          rcases lt_trichotomy x y with h | h | h
          · left; simp [charListLe, h]
          · subst h
            rcases ih ys with h2 | h2
            · left; simp [charListLe, lt_irrefl, h2]
            · right; simp [charListLe, lt_irrefl, h2]
          · right; simp [charListLe, h]

theorem strLe_total (a b : String) : strLe a b = true ∨ strLe b a = true :=
  charListLe_total a.data b.data

theorem charListLe_trans :
    ∀ {a b c : List Char}, charListLe a b = true → charListLe b c = true →
      charListLe a c = true := by
  intro a
  induction a with
  | nil => intro b c _ _; rfl
  | cons x xs ih =>
      intro b c hab hbc
      cases b with
      | nil => simp [charListLe] at hab
      | cons y ys =>
          cases c with
          | nil => simp [charListLe] at hbc
          | cons z zs =>
              rcases lt_trichotomy x y with hxy | hxy | hxy
              · rcases lt_trichotomy y z with hyz | hyz | hyz
                · simp [charListLe, lt_trans hxy hyz]
                · subst hyz; simp [charListLe, hxy]
                · simp [charListLe, hyz, lt_asymm hyz] at hbc
              · subst hxy
                rcases lt_trichotomy x z with hxz | hxz | hxz
                · simp [charListLe, hxz]
                · subst hxz
                  simp only [charListLe, lt_irrefl, if_false] at hab hbc ⊢
                  exact ih hab hbc
                · simp [charListLe, hxz, lt_asymm hxz] at hbc
              · simp [charListLe, hxy, lt_asymm hxy] at hab

theorem strLe_trans {a b c : String} (h1 : strLe a b = true) (h2 : strLe b c = true) :
    strLe a c = true := charListLe_trans h1 h2

theorem strLe_empty_left (s : String) : strLe "" s = true := rfl

theorem strLe_empty_right (s : String) (h : strLe s "" = true) : s = "" := by
  cases s with
  | mk data =>
      cases data with
      | nil => rfl
      | cons c cs => simp [strLe, charListLe] at h

/-- Insertion step of Python `sorted` over strings. -/
def insertSorted (x : String) : List String → List String
  | [] => [x]
  | y :: ys => if strLe x y then x :: y :: ys else y :: insertSorted x ys

/-- Python `sorted(keys)`: ascending lexicographic sort. -/
def sortStrings : List String → List String
  | [] => []
  | x :: xs => insertSorted x (sortStrings xs)

theorem perm_insertSorted (x : String) (l : List String) :
    List.Perm (insertSorted x l) (x :: l) := by
  induction l with
  | nil => exact List.Perm.refl _
  | cons y ys ih =>
      by_cases h : strLe x y
      · simp [insertSorted, h]
      · simp only [insertSorted, if_neg h]
        exact ((ih.cons y).trans (List.Perm.swap x y ys))

theorem perm_sortStrings (l : List String) : List.Perm (sortStrings l) l := by
  induction l with
  | nil => exact List.Perm.refl _
  | cons x xs ih => exact (perm_insertSorted x (sortStrings xs)).trans (ih.cons x)

theorem mem_sortStrings {a : String} {l : List String} :
    a ∈ sortStrings l ↔ a ∈ l := (perm_sortStrings l).mem_iff

theorem nodup_sortStrings {l : List String} (h : l.Nodup) : (sortStrings l).Nodup :=
  (perm_sortStrings l).nodup_iff.mpr h

theorem pairwise_insertSorted (x : String) (l : List String)
    (h : l.Pairwise (fun a b => strLe a b = true)) :
    (insertSorted x l).Pairwise (fun a b => strLe a b = true) := by
  induction l with
  | nil => simp [insertSorted]
  | cons y ys ih =>
      by_cases hxy : strLe x y
      · simp only [insertSorted, if_pos hxy]
        refine List.Pairwise.cons ?_ h
        intro b hb
        rcases List.mem_cons.mp hb with hb | hb
        · subst hb; exact hxy
        · have hyb := (List.pairwise_cons.mp h).1 b hb
          exact strLe_trans hxy hyb
      · simp only [insertSorted, if_neg hxy]
        have hys := (List.pairwise_cons.mp h).2
        refine List.Pairwise.cons ?_ (ih hys)
        intro b hb
        have hb' : b ∈ x :: ys := (perm_insertSorted x ys).mem_iff.mp hb
        rcases List.mem_cons.mp hb' with hb' | hb'
        · rcases strLe_total b y with hx | hx
          · rw [hb'] at hx; exact absurd hx hxy
          · exact hx
        · exact (List.pairwise_cons.mp h).1 b hb'

theorem pairwise_sortStrings (l : List String) :
    (sortStrings l).Pairwise (fun a b => strLe a b = true) := by
  induction l with
  | nil => simp [sortStrings]
  | cons x xs ih => exact pairwise_insertSorted x (sortStrings xs) ih

/-- A nodup list sorted by `strLe` that contains `""` starts with `""`,
followed by the rest of the list. -/
theorem sorted_nodup_empty_head (l : List String)
    (hs : l.Pairwise (fun a b => strLe a b = true)) (hnd : l.Nodup)
    (hmem : "" ∈ l) : l = "" :: l.filter (fun k => decide (k ≠ "")) := by
  cases l with
  | nil => cases hmem
  | cons h t =>
      by_cases hh : h = ""
      · subst hh
        have hnotin : "" ∉ t := (List.nodup_cons.mp hnd).1
        have ht : t.filter (fun k => decide (k ≠ "")) = t := by
          apply List.filter_eq_self.mpr
          intro a ha
          simp only [decide_eq_true_eq]
          intro h0
          exact hnotin (h0 ▸ ha)
        have hhead : List.filter (fun k => decide (k ≠ "")) ("" :: t) =
            t.filter (fun k => decide (k ≠ "")) := by
          rw [List.filter_cons]
          simp
        rw [hhead, ht]
      · exfalso
        have hmt : "" ∈ t := by
          rcases List.mem_cons.mp hmem with h0 | h0
          · exact absurd h0.symm hh
          · exact h0
        have hle := (List.pairwise_cons.mp hs).1 "" hmt
        exact hh (strLe_empty_right h hle)

/-- The `ordered` accumulation loop of `_select_next_step_id`
(`for k in sorted(steps.keys()): if k not in ordered: ordered.append(k)`). -/
def dedupAppend (acc : List String) : List String → List String
  | [] => acc
  | k :: rest =>
      if k ∈ acc then dedupAppend acc rest else dedupAppend (acc ++ [k]) rest

theorem dedupAppend_nodup (acc : List String) (ks : List String) (hnd : ks.Nodup) :
    dedupAppend acc ks = acc ++ ks.filter (fun k => decide (k ∉ acc)) := by
  induction ks generalizing acc with
  | nil => simp [dedupAppend]
  | cons k rest ih =>
      have hk : k ∉ rest := (List.nodup_cons.mp hnd).1
      have hrest : rest.Nodup := (List.nodup_cons.mp hnd).2
      by_cases hmem : k ∈ acc
      · simp only [dedupAppend, if_pos hmem, List.filter, decide_not]
        rw [ih acc hrest]
        simp [hmem]
      · simp only [dedupAppend, if_neg hmem]
        rw [ih (acc ++ [k]) hrest]
        have hfilter : rest.filter (fun x => decide (x ∉ acc ++ [k])) =
            rest.filter (fun x => decide (x ∉ acc)) := by
          apply List.filter_congr
          intro x hx
          have hxk : x ≠ k := fun h => hk (h ▸ hx)
          simp [List.mem_append, hxk]
        rw [hfilter]
        simp [List.filter, hmem]

/-! ### KillSwitchV2 (`forge/autonomy/config/kill_switch_v2.py`) and the
`worker_status` lane lookup (`forge/autonomy/api_v2.py`) -/

/-- The `kill_switch_v2` config blob: `{"lanes": {"<env>:<lane>": bool}}`.
`lanes` is the parsed dict (absent/None modelled as the empty dict,
matching `self.blob.get("lanes") or {}`). -/
structure KillSwitchBlob where
  lanes : List (String × Bool)
deriving DecidableEq, Repr

/-- `KillSwitchV2.lane_enabled(env, lane)`: looks up `"<env>:<lane>"` in the
blob's `lanes`, default `True` when absent. Reads only the blob. -/
def lane_enabled (blob : KillSwitchBlob) (env lane : String) : Bool :=
  (alookup blob.lanes (env ++ ":" ++ lane)).getD true

/-- The flat config key `kill_switch.<env>.<lane>.lane_enabled`. -/
def flatLaneKey (env lane : String) : String :=
  "kill_switch." ++ env ++ "." ++ lane ++ ".lane_enabled"

/-- The `worker_status` endpoint's `lane_enabled`: reads only the flat key
via `config_registry.get(lane_key)`, default `True` when the key is absent
(`lane_config if lane_config is not None else True`). The flat config store
is modelled as an association list from key to the stored boolean. -/
def worker_status_lane_enabled (flat : List (String × Bool)) (env lane : String) : Bool :=
  (alookup flat (flatLaneKey env lane)).getD true

/-- Modelled from the spec's words, for comparison only: `LaneEnabled` as the
blob entry (default true) overlaid by the flat key, flat key winning whenever
present. No function in the source computes this. -/
def specOverlayLaneEnabled (blob : KillSwitchBlob) (flat : List (String × Bool))
    (env lane : String) : Bool :=
  match alookup flat (flatLaneKey env lane) with
  | some b => b
  | none => (alookup blob.lanes (env ++ ":" ++ lane)).getD true

def c3blob : KillSwitchBlob := ⟨[("local:default", false)]⟩

def c3flat : List (String × Bool) := [("kill_switch.local.default.lane_enabled", true)]

/-- Claim C3 is false on the code: with blob `{"lanes": {"local:default": false}}`
and the flat key set to `true`, the overlay formula gives `true` but
`KillSwitchV2.lane_enabled` gives `false` (it ignores the flat key); and with
the flat key absent, the overlay formula gives `false` but the
`worker_status` derivation gives `true` (it ignores the blob). -/
theorem C3_counterexample :
    specOverlayLaneEnabled c3blob c3flat "local" "default" = true ∧
    lane_enabled c3blob "local" "default" = false ∧
    specOverlayLaneEnabled c3blob [] "local" "default" = false ∧
    worker_status_lane_enabled [] "local" "default" = true := by
  refine ⟨?_, ?_, ?_, ?_⟩ <;> rfl

/-- Claim C3 (amended): the code derives two independent `LaneEnabled` values
and never overlays them. `KillSwitchV2.lane_enabled(env, lane)` equals the
blob's `lanes["<env>:<lane>"]` entry defaulting to `true`, with the flat key
ignored; the `worker_status` endpoint's `lane_enabled` equals the flat key
`kill_switch.<env>.<lane>.lane_enabled` defaulting to `true`, with the blob
ignored. Each coincides with the spec's overlay exactly when its own source
is the one the overlay would pick. -/
theorem C3_lane_enabled_split (blob : KillSwitchBlob) (flat : List (String × Bool))
    (env lane : String) :
    lane_enabled blob env lane = (alookup blob.lanes (env ++ ":" ++ lane)).getD true ∧
    worker_status_lane_enabled flat env lane = (alookup flat (flatLaneKey env lane)).getD true ∧
    (alookup flat (flatLaneKey env lane) = none →
      specOverlayLaneEnabled blob flat env lane = lane_enabled blob env lane) ∧
    (∀ b, alookup flat (flatLaneKey env lane) = some b →
      specOverlayLaneEnabled blob flat env lane = worker_status_lane_enabled flat env lane) := by
  refine ⟨rfl, rfl, ?_, ?_⟩
  · intro h
    simp [specOverlayLaneEnabled, lane_enabled, h]
  · intro b h
    simp [specOverlayLaneEnabled, worker_status_lane_enabled, h]

/-! ### Admin gates (`forge/autonomy/api_v2.py:verify_admin_token`,
`forge/app.py:_require_admin`) -/

/-- Outcome of an admin gate: `allow` lets the request through to the
endpoint body; `deny s c` raises an HTTPException with status `s` and
detail/code `c`, so the operation does not execute. -/
inductive GateOutcome where
  | allow
  | deny (httpStatus : Nat) (detail : String)
deriving DecidableEq, Repr

/-- `verify_admin_token` (the dependency gating POST `/worker/tick_once` and
POST `/kill_switch/lane`). `adminToken` is the configured `ADMIN_TOKEN`
(empty string when unset); `headerToken` is the resolved `X-Admin-Token`
header value (after the case-variant fallbacks), `none` when absent.
When the configured token is empty the gate returns `True` for every
request ("dev mode"). On mismatch it audits and raises 403. -/
def verify_admin_token (adminToken : String) (headerToken : Option String) : GateOutcome :=
  if adminToken = "" then GateOutcome.allow
  else if headerToken = some adminToken then GateOutcome.allow
  else GateOutcome.deny 403 "INVALID_ADMIN_TOKEN"

/-- `_require_admin` (gating GET `/api/autonomy/v2/worker/status` and
POST `/api/autonomy/v2/worker/tick-once`). `expected` is
`settings.ADMIN_TOKEN or ""`; `token` is the header value or `""`. -/
def require_admin (expected : String) (token : String) : GateOutcome :=
  if expected = "" then GateOutcome.deny 503 "admin_token_not_configured"
  else if token = expected then GateOutcome.allow
  else GateOutcome.deny 401 "unauthorized"

/-- Claim C1 is false on the code: with an empty configured admin token,
`verify_admin_token` — the gate of POST `/worker/tick_once` and POST
`/kill_switch/lane` — allows the request (so the operation executes); it does
not fail with a 503 `AdminTokenNotConfigured` error. -/
theorem C1_counterexample :
    verify_admin_token "" none = GateOutcome.allow ∧
    verify_admin_token "" none ≠ GateOutcome.deny 503 "admin_token_not_configured" := by
  exact ⟨rfl, by decide⟩

/-- Claim C1 (amended): with an empty configured admin token, the gate of
POST `/worker/tick_once` and POST `/kill_switch/lane` (`verify_admin_token`)
allows every request, so the gated operation executes ("dev mode"); the
`AdminTokenNotConfigured` 503 failure is implemented only by
`_require_admin`, the gate of GET `/api/autonomy/v2/worker/status` and
POST `/api/autonomy/v2/worker/tick-once`, which raises it for every request
when the configured token is empty. -/
theorem C1_empty_token_gates (headerToken : Option String) (rawToken : String) :
    verify_admin_token "" headerToken = GateOutcome.allow ∧
    require_admin "" rawToken = GateOutcome.deny 503 "admin_token_not_configured" :=
  ⟨rfl, rfl⟩

/-! ### LeaseStore (`forge/autonomy/leases/lease_store.py`) -/

/-- A `leases_v2` row. Timestamps are epoch seconds: the code stores
RFC-3339 strings but converts through `_epoch_from_iso`/`_iso_from_epoch`
at second precision, so the epoch value is the content. -/
structure Lease where
  owner_id : String
  acquired_at : Nat
  renewed_at : Nat
  expires_at : Nat
deriving DecidableEq, Repr

/-- `LeaseStore.acquire(run_id, owner_id, ttl_seconds)` at time `now`.
The table keyed by `run_id` (primary key) is the association list `tbl`.
Returns the boolean result and the table after the transaction:
an existing row with `expires_at > now` yields `False` and a rollback;
otherwise `INSERT OR REPLACE` writes the caller's row and yields `True`. -/
def acquire (tbl : List (String × Lease)) (run_id owner_id : String)
    (ttl_seconds now : Nat) : Bool × List (String × Lease) :=
  match alookup tbl run_id with
  | some row =>
      if row.expires_at > now then (false, tbl)
      else (true, aset tbl run_id ⟨owner_id, now, now, now + ttl_seconds⟩)
  | none => (true, aset tbl run_id ⟨owner_id, now, now, now + ttl_seconds⟩)

/-- Claim C7: `Acquire(run_id, owner_id, ttl)` succeeds and (over)writes the
row with `owner_id`, `acquired_at = renewed_at = now`,
`expires_at = now + ttl` exactly when no row exists or the existing row's
`expires_at` is not after `now` (other rows untouched); otherwise it returns
`false` and leaves the whole table unchanged. -/
theorem C7_acquire (tbl : List (String × Lease)) (r o : String) (ttl now : Nat) :
    ((∀ row, alookup tbl r = some row → row.expires_at ≤ now) →
      (acquire tbl r o ttl now).1 = true ∧
      alookup (acquire tbl r o ttl now).2 r = some ⟨o, now, now, now + ttl⟩ ∧
      ∀ r', r' ≠ r → alookup (acquire tbl r o ttl now).2 r' = alookup tbl r') ∧
    (∀ row, alookup tbl r = some row → now < row.expires_at →
      (acquire tbl r o ttl now).1 = false ∧ (acquire tbl r o ttl now).2 = tbl) := by
  constructor
  · intro hfree
    cases hrow : alookup tbl r with
    | none =>
        simp only [acquire, hrow]
        exact ⟨trivial, alookup_aset_self tbl r _,
          fun r' hne => alookup_aset_other tbl r r' _ hne⟩
    | some row =>
        have hle := hfree row hrow
        have hnot : ¬ row.expires_at > now := not_lt.mpr hle
        simp only [acquire, hrow, if_neg hnot]
        exact ⟨trivial, alookup_aset_self tbl r _,
          fun r' hne => alookup_aset_other tbl r r' _ hne⟩
  · intro row hrow hlt
    simp only [acquire, hrow, if_pos hlt]
    exact ⟨trivial, trivial⟩

/-- Witness for C7 at concrete inputs: an empty table grants the lease and
writes the expected row; a table holding an unexpired lease refuses and is
unchanged. -/
theorem C7_acquire_witness :
    (acquire [] "r1" "w1" 30 100).1 = true ∧
    alookup (acquire [] "r1" "w1" 30 100).2 "r1" = some ⟨"w1", 100, 100, 130⟩ ∧
    (acquire [("r1", ⟨"w2", 90, 90, 120⟩)] "r1" "w1" 30 100).1 = false := by
  have h1 := (C7_acquire [] "r1" "w1" 30 100).1 (by intro row hrow; cases hrow)
  have h2 := (C7_acquire [("r1", ⟨"w2", 90, 90, 120⟩)] "r1" "w1" 30 100).2
    ⟨"w2", 90, 90, 120⟩ rfl (by decide)
  exact ⟨h1.1, h1.2.1, h2.1⟩

/-! ### Audit writers (`forge/app.py:_audit`,
`forge/autonomy/audit/audit_log.py:AuditLog.record`) -/

/-- Python substring test `needle in hay` on char lists. -/
def charsStartWith : List Char → List Char → Bool
  | [], _ => true
  | _ :: _, [] => false
  | a :: as, b :: bs => a == b && charsStartWith as bs

def charsContain (needle : List Char) : List Char → Bool
  | [] => charsStartWith needle []
  | c :: t => charsStartWith needle (c :: t) || charsContain needle t

/-- Python `needle in hay` for strings. -/
def pyInStr (needle hay : String) : Bool := charsContain needle.data hay.data

/-- Python `k.lower()` (ASCII; audit keys are ASCII identifiers). -/
def pyLower (s : String) : String := ⟨s.data.map Char.toLower⟩

/-- `any(secret_key in k.lower() for secret_key in ['token', 'password',
'secret', 'key'])` — the secret-key filter predicate of `_audit`. -/
def isSecretKeyName (k : String) : Bool :=
  ["token", "password", "secret", "key"].any (fun s => pyInStr s (pyLower k))

/-- The payload dict sanitizer inside `_audit`:
`{k: v for k, v in payload.items() if not any(...)}`. -/
def auditSanitize (payload : List (String × String)) : List (String × String) :=
  payload.filter (fun kv => !(isSecretKeyName kv.1))

/-- An `audit_log` row (payload and error kept as parsed dicts;
`none` models SQL NULL). -/
structure AuditRow where
  ts : String
  actor_id : Option String
  actor_role : Option String
  action : String
  target_id : Option String
  result : String
  payload_json : Option (List (String × String))
  error_json : Option (List (String × String))
deriving DecidableEq, Repr

/-- The row written by `forge.app._audit`: the payload is sanitized, and
(because `_audit` tests truthiness, not `is None`) an empty or
fully-filtered payload is stored as NULL. -/
def appAuditRow (ts : String) (action result : String)
    (actor_id actor_role target_id : Option String)
    (payload error : Option (List (String × String))) : AuditRow :=
  let payload_json :=
    match payload with
    | none => none
    | some p =>
        if p.isEmpty then none
        else
          let safe := auditSanitize p
          if safe.isEmpty then none else some safe
  ⟨ts, actor_id, actor_role, action, target_id, result, payload_json, error⟩

/-- The row written by `AuditLog.record`: the payload is persisted verbatim
(`json.dumps(payload) if payload is not None else None`) — no filtering. -/
def auditLogRecordRow (ts : String) (action : String)
    (actor_id actor_role target_id : Option String) (result : String)
    (payload error : Option (List (String × String))) : AuditRow :=
  ⟨ts, actor_id, actor_role, action, target_id, result, payload, error⟩

/-- True when the persisted payload JSON has a key whose lowercased name
contains one of `token`, `password`, `secret`, `key`. -/
def rowHasSecretPayloadKey (row : AuditRow) : Bool :=
  match row.payload_json with
  | none => false
  | some p => p.any (fun kv => isSecretKeyName kv.1)

/-- Claim C9 is false on the code: `AuditLog.record` is an audit-writing
operation, and called with payload `{"api_key": "v"}` it persists a payload
JSON whose key `api_key` contains the forbidden substring `key`. -/
theorem C9_counterexample :
    rowHasSecretPayloadKey
      (auditLogRecordRow "t" "op" none none none "ok" (some [("api_key", "v")]) none)
      = true := by decide

/-- Claim C9 (amended): rows written through `forge.app._audit` never persist
a payload key whose lowercased name contains `token`, `password`, `secret`
or `key`; but `AuditLog.record` persists its payload dictionary verbatim,
with no filtering. -/
theorem C9_audit_filtering (ts action result : String)
    (actor_id actor_role target_id : Option String)
    (payload error : Option (List (String × String))) :
    rowHasSecretPayloadKey
      (appAuditRow ts action result actor_id actor_role target_id payload error) = false ∧
    (auditLogRecordRow ts action actor_id actor_role target_id result payload error).payload_json
      = payload := by
  constructor
  · cases payload with
    | none => rfl
    | some p =>
        by_cases hemp : p.isEmpty
        · simp [appAuditRow, rowHasSecretPayloadKey, hemp]
        · by_cases hsafe : (auditSanitize p).isEmpty
          · simp [appAuditRow, rowHasSecretPayloadKey, hemp, hsafe]
          · simp only [appAuditRow, rowHasSecretPayloadKey, if_neg hemp, if_neg hsafe]
            rw [List.any_eq_false]
            intro kv hkv
            have := List.of_mem_filter hkv
            simpa using this
  · rfl

/-! ### EventBusV2.replay (`forge/autonomy/events/event_bus_v2.py`) -/

/-- A `run_events_v2` row: autoincrement `id`, run id, RFC-3339 `ts`
(TEXT, compared by SQLite with binary collation), event type, payload JSON. -/
structure EventRow where
  id : Nat
  run_id : String
  ts : String
  event_type : String
  payload_json : String
deriving DecidableEq, Repr

/-- Rows of the table belonging to `run_id` (`WHERE run_id = ?`),
in table order. -/
def runEvents (tbl : List EventRow) (rid : String) : List EventRow :=
  tbl.filter (fun e => decide (e.run_id = rid))

/-- Sorted as `ORDER BY ts ASC` requires. -/
def SortedByTs (l : List EventRow) : Prop :=
  l.Pairwise (fun a b => strLe a.ts b.ts = true)

/-- Sorted by `(ts asc, id asc)` — what the claim asserts: equal-`ts`
events in ascending `id` order. -/
def SortedByTsId (l : List EventRow) : Prop :=
  l.Pairwise (fun a b => (a.ts = b.ts ∧ a.id < b.id) ∨ (a.ts ≠ b.ts ∧ strLe a.ts b.ts = true))

/-- Semantics of `replay`'s query
`SELECT ... WHERE run_id = ? ORDER BY ts ASC LIMIT ?`: the output is the
first `lim` rows of some permutation of the run's rows that is sorted by
`ts` alone — SQL fixes no relative order for rows with equal `ts`
(the query has no `id` tiebreak; the rows' `id` column is not even
selected). -/
def ReplayResult (tbl : List EventRow) (rid : String) (lim : Nat)
    (out : List EventRow) : Prop :=
  ∃ p : List EventRow, List.Perm p (runEvents tbl rid) ∧ SortedByTs p ∧ out = p.take lim

def c8row1 : EventRow := ⟨1, "r", "2025-01-01T00:00:00Z", "RUN_STARTED", "{}"⟩

def c8row2 : EventRow := ⟨2, "r", "2025-01-01T00:00:00Z", "STEP_STARTED", "{}"⟩

/-- Claim C8 is false on the code: for a table holding two events of run `r`
with equal `ts` and ids 1, 2, the output `[id 2, id 1]` satisfies the
query's contract (it is a ts-sorted permutation truncated to the limit) yet
its equal-`ts` events are not in ascending id order. -/
theorem C8_counterexample :
    ReplayResult [c8row1, c8row2] "r" 2 [c8row2, c8row1] ∧
    ¬ SortedByTsId [c8row2, c8row1] := by
  constructor
  · refine ⟨[c8row2, c8row1], ?_, ?_, rfl⟩
    · have : runEvents [c8row1, c8row2] "r" = [c8row1, c8row2] := rfl
      rw [this]
      exact List.Perm.swap c8row1 c8row2 []
    · unfold SortedByTs
      refine List.pairwise_cons.mpr ⟨?_, List.pairwise_singleton _ _⟩
      intro b hb
      have hb' : b = c8row1 := List.mem_singleton.mp hb
      subst hb'
      rfl
  · intro h
    have := (List.pairwise_cons.mp h).1 c8row1 (List.mem_singleton.mpr rfl)
    rcases this with ⟨_, hlt⟩ | ⟨hne, _⟩
    · exact absurd hlt (by decide)
    · exact hne rfl

/-- Claim C8 (amended): `Replay(run_id, limit)` returns at most `limit` of
the run's persisted events, sorted by `ts` ascending; the relative order of
events with equal `ts` is not specified (the query orders by `ts` alone,
with no `id` tiebreak — unlike the HTTP events endpoint, which orders by
`(ts, id)`). -/
theorem C8_replay_sorted_by_ts (tbl : List EventRow) (rid : String) (lim : Nat)
    (out : List EventRow) (h : ReplayResult tbl rid lim out) :
    SortedByTs out ∧ out.length ≤ lim ∧ ∀ e ∈ out, e ∈ runEvents tbl rid := by
  obtain ⟨p, hperm, hsort, hout⟩ := h
  subst hout
  refine ⟨?_, ?_, ?_⟩
  · exact hsort.sublist (List.take_sublist lim p)
  · exact List.length_take_le lim p
  · intro e he
    exact hperm.mem_iff.mp (List.mem_of_mem_take he)

/-- Witness for C8 (amended) at a concrete input: the in-table-order output
for the two-row table is a valid replay result, hence ts-sorted and within
the limit. -/
theorem C8_replay_witness :
    SortedByTs [c8row1, c8row2] ∧ ([c8row1, c8row2] : List EventRow).length ≤ 2 := by
  have h := C8_replay_sorted_by_ts [c8row1, c8row2] "r" 2 [c8row1, c8row2]
    ⟨[c8row1, c8row2], List.Perm.refl _, by
      unfold SortedByTs
      refine List.pairwise_cons.mpr ⟨?_, List.pairwise_singleton _ _⟩
      intro b hb
      have hb' : b = c8row2 := List.mem_singleton.mp hb
      subst hb'
      rfl, rfl⟩
  exact ⟨h.1, h.2.1⟩

/-! ### POST `/worker/tick_once` (`forge/autonomy/api_v2.py:tick_once`,
`forge/autonomy/worker_v2.py:WorkerTickSummary`) -/

/-- The dataclass returned by `WorkerV2.tick_once`. -/
structure WorkerTickSummary where
  owner_id : String
  env : String
  lane : String
  ticks_used : Nat
  runs_ticked : Nat
deriving DecidableEq, Repr

/-- Result of a Python attribute access that the `try` block observes. -/
inductive PyAttr (α : Type) where
  | ok (a : α)
  | attributeError (msg : String)
deriving DecidableEq, Repr

/-- `result.get("ticked_runs", 0)` where `result` is the `WorkerTickSummary`
returned by `WorkerV2.tick_once`: a dataclass defines no `get` attribute,
so the attribute lookup raises `AttributeError` unconditionally. -/
def summaryGet (result : WorkerTickSummary) (attr : String) (dflt : Nat) : PyAttr Nat :=
  PyAttr.attributeError "WorkerTickSummary object has no attribute get"

/-- Response of the POST `/worker/tick_once` handler: a JSON body, or an
HTTPException with status and stable error code. -/
inductive TickOnceResponse where
  | body (status : String) (ticked_runs : Nat) (events_added : Nat) (reason : Option String)
  | httpError (httpStatus : Nat) (code : String)
deriving DecidableEq, Repr

/-- The `tick_once` endpoint body from the point where
`worker.tick_once(...)` has returned `result` normally: reads
`result.get("ticked_runs", 0)` inside the `try`, branches on zero for the
idle outcome, and maps any exception to an audited 500 `TICK_ERROR`.
Second component: the `result` column of the audit row the handler writes. -/
def tick_once_endpoint (result : WorkerTickSummary) : TickOnceResponse × String :=
  match summaryGet result "ticked_runs" 0 with
  | PyAttr.ok n =>
      if n = 0 then (TickOnceResponse.body "idle" 0 0 (some "no_runnable_runs"), "idle")
      else (TickOnceResponse.body "success" n 0 none, "success")
  | PyAttr.attributeError _ =>
      (TickOnceResponse.httpError 500 "TICK_ERROR", "error")

/-- Claim C2 fails on the code (code bug): for every authorized, well-formed
request, once `WorkerV2.tick_once` returns its `WorkerTickSummary` normally,
the handler's `result.get("ticked_runs", 0)` raises `AttributeError`
(dataclasses have no `get`), so the endpoint always answers 500
`TICK_ERROR` and audits `result = "error"` — never the promised
`success`/`idle` body. -/
theorem C2_tick_once_always_500 (result : WorkerTickSummary) :
    tick_once_endpoint result = (TickOnceResponse.httpError 500 "TICK_ERROR", "error") := rfl

/-! ### GraphTickV2 (`forge/autonomy/graph_tick_v2.py`) -/

/-- A step definition `{id, deps, kind}` (the ticker reads only `deps` and
`kind`); `kind = none` models an absent or `None` field,
`deps` is `step.get("deps") or []`. -/
structure StepDef where
  deps : List String
  kind : Option String
deriving DecidableEq, Repr

/-- A `step_states` entry `{status, updated_at}`. -/
structure StepState where
  status : String
  updated_at : String
deriving DecidableEq, Repr

/-- The run graph `{entry_step, steps}`; an absent graph is the empty one. -/
structure Graph where
  entry_step : Option String
  steps : List (String × StepDef)
deriving DecidableEq, Repr

/-- The ticker's `last_error` object. -/
structure LastError where
  stage : String
  reason : String
  step_id : Option String
deriving DecidableEq, Repr

/-- The run state blob, restricted to the fields `tick_run` reads or
writes. -/
structure RunState where
  status : Option String
  started_at : Option String
  finished_at : Option String
  last_error : Option LastError
  run_graph : Graph
  step_states : List (String × StepState)
deriving DecidableEq, Repr

/-- An event as handed to `EventBusV2.publish`. -/
structure EventOut where
  event_type : String
  payload : List (String × String)
deriving DecidableEq, Repr

/-- Everything one `tick_run` call does: the returned state, the events
published (in order), and the states written via `put_run_state_v2`
(in order). -/
structure TickOutcome where
  state : RunState
  events : List EventOut
  puts : List RunState
deriving DecidableEq, Repr

def stepKeys (g : Graph) : List String := g.steps.map Prod.fst

/-- The `ordered` list of `_select_next_step_id`: `entry_step` first when
truthy and present in `steps`, then `sorted(steps.keys())`, appending only
ids not already in the list. -/
def orderedStepIds (g : Graph) : List String :=
  let base : List String :=
    match g.entry_step with
    | some e => if e ≠ "" ∧ (alookup g.steps e).isSome then [e] else []
    | none => []
  dedupAppend base (sortStrings (stepKeys g))

/-- `step_states.get(sid, {}).get("status")`. -/
def stepStatusOf (ss : List (String × StepState)) (sid : String) : Option String :=
  (alookup ss sid).map StepState.status

/-- `steps[sid].get("deps") or []` (selection only inspects ids present in
`steps`, where the default is never taken). -/
def depsOf (steps : List (String × StepDef)) (sid : String) : List String :=
  match alookup steps sid with
  | some sd => sd.deps
  | none => []

/-- The selection predicate of `_select_next_step_id`'s loop: own state not
`succeeded`, and every dep's state `succeeded`. -/
def runnableStep (state : RunState) (g : Graph) (sid : String) : Bool :=
  !(stepStatusOf state.step_states sid == some "succeeded") &&
    (depsOf g.steps sid).all (fun d => stepStatusOf state.step_states d == some "succeeded")

/-- `_select_next_step_id(state, graph)`. -/
def _select_next_step_id (state : RunState) (g : Graph) : Option String :=
  (orderedStepIds g).find? (runnableStep state g)

/-- `(step.get("kind") or "noop").lower()`. -/
def effKind (sd : StepDef) : String :=
  pyLower (match sd.kind with
    | none => "noop"
    | some k => if k = "" then "noop" else k)

/-- `_mark_step(state, step_id, status)` at time `now`. -/
def _mark_step (state : RunState) (step_id status now : String) : RunState :=
  { state with step_states := aset state.step_states step_id ⟨status, now⟩ }

def runStartedEv (run_id : String) : EventOut :=
  ⟨"RUN_STARTED", [("run_id", run_id)]⟩

def runSucceededEv (run_id : String) : EventOut :=
  ⟨"RUN_SUCCEEDED", [("run_id", run_id)]⟩

def runBlockedEv (run_id reason sid : String) : EventOut :=
  ⟨"RUN_BLOCKED", [("run_id", run_id), ("reason", reason), ("step_id", sid)]⟩

def stepStartedEv (run_id sid : String) : EventOut :=
  ⟨"STEP_STARTED", [("run_id", run_id), ("step_id", sid)]⟩

def stepSucceededEv (run_id sid : String) : EventOut :=
  ⟨"STEP_SUCCEEDED", [("run_id", run_id), ("step_id", sid)]⟩

def stepFailedEv (run_id sid reason : String) : EventOut :=
  ⟨"STEP_FAILED", [("run_id", run_id), ("step_id", sid), ("reason", reason)]⟩

/-- The start transition (`tick_run` lines setting `started_at`, moving to
`running` and publishing `RUN_STARTED`); identity when `started_at` is
already set. -/
def startTransition (now run_id : String) (state : RunState) : RunState × List EventOut :=
  if state.started_at = none then
    ({ state with started_at := some now, status := some "running" }, [runStartedEv run_id])
  else (state, [])

def terminalStatuses : List String := ["succeeded", "failed", "blocked", "canceled"]

/-- Python truthiness of the selected id: `if not next_step_id` is taken
both for `None` and for the empty-string id. -/
def pyFalsyId : Option String → Bool
  | none => true
  | some s => decide (s = "")

/-- `GraphTickV2.tick_run(run_id)` on the state read from the store.
The optional policy models `policy_loader.dispatch_allowed` when the
loader has that attribute (`none` otherwise — the wired
`AutonomyPolicyLoaderV2` does not). -/
def tick_run (policy : Option (RunState → StepDef → Bool × String))
    (now run_id : String) (state0 : RunState) : TickOutcome :=
  if pyLower (state0.status.getD "") ∈ terminalStatuses then
    ⟨state0, [], []⟩
  else
    let st := startTransition now run_id state0
    let state1 := st.1
    let g := state1.run_graph
    let sel := _select_next_step_id state1 g
    let noStep : TickOutcome :=
      if state1.status = some "running" then
        let state2 := { state1 with status := some "succeeded", finished_at := some now }
        ⟨state2, st.2 ++ [runSucceededEv run_id], [state2]⟩
      else ⟨state1, st.2, []⟩
    if pyFalsyId sel = true then noStep
    else
      let sid := sel.getD ""
      let step := (alookup g.steps sid).getD ⟨[], none⟩
      let kind := effKind step
      let gate :=
        match policy with
        | some dispatch_allowed => dispatch_allowed state1 step
        | none => (true, "")
      if gate.1 = false then
        let state2 := { state1 with
                        status := some "blocked",
                        last_error := some ⟨"dispatch", gate.2, none⟩ }
        ⟨state2, st.2 ++ [runBlockedEv run_id gate.2 sid], [state2]⟩
      else
        let evs2 := st.2 ++ [stepStartedEv run_id sid]
        if kind = "noop" then
          let state2 := _mark_step state1 sid "succeeded" now
          let evs3 := evs2 ++ [stepSucceededEv run_id sid]
          if _select_next_step_id state2 g = none ∧ state2.status = some "running" then
            let state3 := { state2 with
                            status := some "succeeded",
                            finished_at := some now }
            ⟨state3, evs3 ++ [runSucceededEv run_id], [state3]⟩
          else ⟨state2, evs3, [state2]⟩
        else
          let state2 := { _mark_step state1 sid "failed" now with
                          status := some "failed",
                          finished_at := some now,
                          last_error := some ⟨"step", "unsupported_kind:" ++ kind, some sid⟩ }
          ⟨state2, evs2 ++ [stepFailedEv run_id sid ("unsupported_kind:" ++ kind)], [state2]⟩

/-- The outcome of `tick_run` when it executes step `sid` as a noop:
mark `sid` succeeded, publish `STEP_STARTED` / `STEP_SUCCEEDED`, then the
completion probe, then persist. -/
def noopOutcome (now run_id : String) (state0 : RunState) (sid : String) : TickOutcome :=
  let st := startTransition now run_id state0
  let state1 := st.1
  let evs2 := st.2 ++ [stepStartedEv run_id sid]
  let state2 := _mark_step state1 sid "succeeded" now
  let evs3 := evs2 ++ [stepSucceededEv run_id sid]
  if _select_next_step_id state2 state1.run_graph = none ∧ state2.status = some "running" then
    let state3 := { state2 with status := some "succeeded", finished_at := some now }
    ⟨state3, evs3 ++ [runSucceededEv run_id], [state3]⟩
  else ⟨state2, evs3, [state2]⟩

theorem startTransition_run_graph (now run_id : String) (s : RunState) :
    (startTransition now run_id s).1.run_graph = s.run_graph := by
  unfold startTransition
  by_cases h : s.started_at = none <;> simp [h]

theorem startTransition_step_states (now run_id : String) (s : RunState) :
    (startTransition now run_id s).1.step_states = s.step_states := by
  unfold startTransition
  by_cases h : s.started_at = none <;> simp [h]

theorem startTransition_status (now run_id : String) (s : RunState) :
    (startTransition now run_id s).1.status = some "running" ∨
    ((startTransition now run_id s).1 = s ∧ s.started_at ≠ none) := by
  unfold startTransition
  by_cases h : s.started_at = none
  · left; simp [h]
  · right; simp [h]

/-- `_select_next_step_id` reads only `step_states` from the state. -/
theorem select_congr (s1 s2 : RunState) (g : Graph)
    (h : s1.step_states = s2.step_states) :
    _select_next_step_id s1 g = _select_next_step_id s2 g := by
  have hr : runnableStep s1 g = runnableStep s2 g := by
    funext sid
    simp only [runnableStep, stepStatusOf, h]
  simp only [_select_next_step_id, hr]

/-- Claim C4: `TickRun` on a run whose persisted status is terminal
(`succeeded`, `failed`, `blocked` or `canceled`) returns the state
unchanged, writes nothing to the run store, and publishes no events. -/
theorem C4_tick_terminal (policy : Option (RunState → StepDef → Bool × String))
    (now run_id : String) (state0 : RunState) (st : String)
    (hst : state0.status = some st)
    (hterm : st = "succeeded" ∨ st = "failed" ∨ st = "blocked" ∨ st = "canceled") :
    tick_run policy now run_id state0 = ⟨state0, [], []⟩ := by
  have hmem : pyLower (state0.status.getD "") ∈ terminalStatuses := by
    rw [hst]
    rcases hterm with h | h | h | h <;> subst h <;> decide
  simp only [tick_run, if_pos hmem]

def c4state : RunState :=
  { status := some "succeeded", started_at := some "t0", finished_at := some "t0",
    last_error := none, run_graph := ⟨none, []⟩, step_states := [] }

/-- Witness for C4: a concrete succeeded run is returned unchanged with no
writes and no events. -/
theorem C4_tick_terminal_witness :
    tick_run none "t1" "r" c4state = ⟨c4state, [], []⟩ :=
  C4_tick_terminal none "t1" "r" c4state "succeeded" rfl (Or.inl rfl)

/-- When a non-terminal tick selects a nonempty step id whose effective kind
is `noop` and the policy gate allows it, `tick_run` produces exactly the
noop outcome. -/
theorem tick_run_noop (policy : Option (RunState → StepDef → Bool × String))
    (now run_id : String) (state0 : RunState) (sid : String)
    (hnt : pyLower (state0.status.getD "") ∉ terminalStatuses)
    (hsel : _select_next_step_id state0 state0.run_graph = some sid)
    (hsid : sid ≠ "")
    (hkind : effKind ((alookup state0.run_graph.steps sid).getD ⟨[], none⟩) = "noop")
    (hpol : ∀ dispatch_allowed, policy = some dispatch_allowed →
      (dispatch_allowed (startTransition now run_id state0).1
        ((alookup state0.run_graph.steps sid).getD ⟨[], none⟩)).1 = true) :
    tick_run policy now run_id state0 = noopOutcome now run_id state0 sid := by
  have hsel1 : _select_next_step_id (startTransition now run_id state0).1
      ((startTransition now run_id state0).1.run_graph) = some sid := by
    rw [startTransition_run_graph]
    rw [select_congr (startTransition now run_id state0).1 state0 state0.run_graph
        (startTransition_step_states now run_id state0)]
    exact hsel
  simp only [tick_run, noopOutcome, if_neg hnt]
  rw [startTransition_run_graph] at hsel1 ⊢
  rw [hsel1]
  have hfal : ¬ (pyFalsyId (some sid) = true) := by simp [pyFalsyId, hsid]
  rw [if_neg hfal]
  simp only [Option.getD_some]
  cases policy with
  | none =>
      rw [hkind]
      simp
  | some dispatch_allowed =>
      have hgate := hpol dispatch_allowed rfl
      rw [hkind]
      simp [hgate]

theorem startTransition_events (now run_id : String) (s : RunState) :
    (startTransition now run_id s).2 = [] ∨
    (startTransition now run_id s).2 = [runStartedEv run_id] := by
  unfold startTransition
  by_cases h : s.started_at = none
  · right; simp [h]
  · left; simp [h]

theorem noopOutcome_step_states (now run_id : String) (state0 : RunState) (sid : String) :
    (noopOutcome now run_id state0 sid).state.step_states =
      aset state0.step_states sid ⟨"succeeded", now⟩ := by
  simp only [noopOutcome]
  by_cases hc : _select_next_step_id
      (_mark_step (startTransition now run_id state0).1 sid "succeeded" now)
      (startTransition now run_id state0).1.run_graph = none ∧
      (_mark_step (startTransition now run_id state0).1 sid "succeeded" now).status
        = some "running"
  · rw [if_pos hc]
    simp [_mark_step, startTransition_step_states]
  · rw [if_neg hc]
    simp [_mark_step, startTransition_step_states]

theorem noopOutcome_events (now run_id : String) (state0 : RunState) (sid : String) :
    (noopOutcome now run_id state0 sid).events =
      ((startTransition now run_id state0).2 ++ [stepStartedEv run_id sid])
        ++ [stepSucceededEv run_id sid] ∨
    (noopOutcome now run_id state0 sid).events =
      (((startTransition now run_id state0).2 ++ [stepStartedEv run_id sid])
        ++ [stepSucceededEv run_id sid]) ++ [runSucceededEv run_id] := by
  simp only [noopOutcome]
  by_cases hc : _select_next_step_id
      (_mark_step (startTransition now run_id state0).1 sid "succeeded" now)
      (startTransition now run_id state0).1.run_graph = none ∧
      (_mark_step (startTransition now run_id state0).1 sid "succeeded" now).status
        = some "running"
  · right; rw [if_pos hc]
  · left; rw [if_neg hc]

/-- `tick_run` when the selected id is falsy (`None` or `""` — the code's
`if not next_step_id`) and the post-start status is `running`: the run is
completed as succeeded. -/
theorem tick_run_falsy_sel (policy : Option (RunState → StepDef → Bool × String))
    (now run_id : String) (state0 : RunState)
    (hnt : pyLower (state0.status.getD "") ∉ terminalStatuses)
    (hsel : pyFalsyId (_select_next_step_id state0 state0.run_graph) = true)
    (hrun : (startTransition now run_id state0).1.status = some "running") :
    tick_run policy now run_id state0 =
      ⟨{ (startTransition now run_id state0).1 with
          status := some "succeeded", finished_at := some now },
        (startTransition now run_id state0).2 ++ [runSucceededEv run_id],
        [{ (startTransition now run_id state0).1 with
          status := some "succeeded", finished_at := some now }]⟩ := by
  have hsel1 : _select_next_step_id (startTransition now run_id state0).1
      ((startTransition now run_id state0).1.run_graph)
      = _select_next_step_id state0 state0.run_graph := by
    rw [startTransition_run_graph]
    exact select_congr _ _ _ (startTransition_step_states now run_id state0)
  simp only [tick_run, if_neg hnt]
  rw [hsel1, if_pos hsel, if_pos hrun]

/-- Claim C5: on a run in a non-terminal status (per the data model:
`queued` and not yet started, or `running`) whose selected step the policy
gate allows and whose selected step's effective kind is `noop`, one
`TickRun` call either changes exactly one step's state to `succeeded`
(leaving every other step state unchanged) or moves the run's status to a
terminal value. -/
theorem C5_tick_progress (policy : Option (RunState → StepDef → Bool × String))
    (now run_id : String) (state0 : RunState) (sid : String)
    (hq : state0.status = some "queued" ∨ state0.status = some "running")
    (hqs : state0.status = some "queued" → state0.started_at = none)
    (hsel : _select_next_step_id state0 state0.run_graph = some sid)
    (hkind : effKind ((alookup state0.run_graph.steps sid).getD ⟨[], none⟩) = "noop")
    (hpol : ∀ dispatch_allowed, policy = some dispatch_allowed →
      (dispatch_allowed (startTransition now run_id state0).1
        ((alookup state0.run_graph.steps sid).getD ⟨[], none⟩)).1 = true) :
    (alookup (tick_run policy now run_id state0).state.step_states sid
        = some ⟨"succeeded", now⟩ ∧
      stepStatusOf state0.step_states sid ≠ some "succeeded" ∧
      ∀ k, k ≠ sid →
        alookup (tick_run policy now run_id state0).state.step_states k
          = alookup state0.step_states k) ∨
    pyLower ((tick_run policy now run_id state0).state.status.getD "")
      ∈ terminalStatuses := by
  have hnt : pyLower (state0.status.getD "") ∉ terminalStatuses := by
    rcases hq with h | h <;> rw [h] <;> decide
  by_cases hsid : sid = ""
  · right
    subst hsid
    have hrun : (startTransition now run_id state0).1.status = some "running" := by
      rcases startTransition_status now run_id state0 with h | ⟨heq, hne⟩
      · exact h
      · rw [heq]
        rcases hq with h | h
        · exact absurd (hqs h) hne
        · exact h
    rw [tick_run_falsy_sel policy now run_id state0 hnt (by rw [hsel]; rfl) hrun]
    show pyLower ((some "succeeded").getD "") ∈ terminalStatuses
    decide
  · left
    have hrun0 : runnableStep state0 state0.run_graph sid = true := by
      have hsel' : (orderedStepIds state0.run_graph).find?
          (runnableStep state0 state0.run_graph) = some sid := hsel
      exact List.find?_some hsel'
    have hprior : stepStatusOf state0.step_states sid ≠ some "succeeded" := by
      simp only [runnableStep, Bool.and_eq_true, Bool.not_eq_true'] at hrun0
      intro h
      rw [h] at hrun0
      simp at hrun0
    rw [tick_run_noop policy now run_id state0 sid hnt hsel hsid hkind hpol]
    have hss := noopOutcome_step_states now run_id state0 sid
    refine ⟨?_, hprior, ?_⟩
    · rw [hss]; exact alookup_aset_self _ _ _
    · intro k hk
      rw [hss]; exact alookup_aset_other _ _ _ _ hk

/-- Claim C10: when the selected step's definition has no `kind` (absent or
`None`, modelled as `none`) or `kind` is the empty string, `tick_run`
executes it as a noop: the step is marked `succeeded`, `STEP_SUCCEEDED` is
published, and no `STEP_FAILED` (unsupported-kind failure) is emitted. -/
theorem C10_missing_kind_is_noop (policy : Option (RunState → StepDef → Bool × String))
    (now run_id : String) (state0 : RunState) (sid : String)
    (hnt : pyLower (state0.status.getD "") ∉ terminalStatuses)
    (hsel : _select_next_step_id state0 state0.run_graph = some sid)
    (hsid : sid ≠ "")
    (hkind : ((alookup state0.run_graph.steps sid).getD ⟨[], none⟩).kind = none ∨
      ((alookup state0.run_graph.steps sid).getD ⟨[], none⟩).kind = some "")
    (hpol : ∀ dispatch_allowed, policy = some dispatch_allowed →
      (dispatch_allowed (startTransition now run_id state0).1
        ((alookup state0.run_graph.steps sid).getD ⟨[], none⟩)).1 = true) :
    alookup (tick_run policy now run_id state0).state.step_states sid
        = some ⟨"succeeded", now⟩ ∧
    stepSucceededEv run_id sid ∈ (tick_run policy now run_id state0).events ∧
    ∀ e ∈ (tick_run policy now run_id state0).events, e.event_type ≠ "STEP_FAILED" := by
  have hek : effKind ((alookup state0.run_graph.steps sid).getD ⟨[], none⟩) = "noop" := by
    rcases hkind with h | h <;> · unfold effKind; rw [h]; decide
  rw [tick_run_noop policy now run_id state0 sid hnt hsel hsid hek hpol]
  have htypes : ∀ e ∈ (noopOutcome now run_id state0 sid).events,
      e = runStartedEv run_id ∨ e = stepStartedEv run_id sid ∨
      e = stepSucceededEv run_id sid ∨ e = runSucceededEv run_id := by
    intro e he
    rcases noopOutcome_events now run_id state0 sid with hev | hev <;>
      rcases startTransition_events now run_id state0 with hst2 | hst2 <;>
        · rw [hev, hst2] at he
          simp at he
          tauto
  refine ⟨?_, ?_, ?_⟩
  · rw [noopOutcome_step_states now run_id state0 sid]
    exact alookup_aset_self _ _ _
  · rcases noopOutcome_events now run_id state0 sid with hev | hev <;>
      · rw [hev]; simp
  · intro e he
    rcases htypes e he with h | h | h | h <;> subst h <;>
      simp [runStartedEv, stepStartedEv, stepSucceededEv, runSucceededEv]

theorem alookup_isSome_iff_mem {β : Type} (l : List (String × β)) (k : String) :
    (alookup l k).isSome ↔ k ∈ l.map Prod.fst := by
  induction l with
  | nil => simp [alookup_nil]
  | cons p rest ih =>
      obtain ⟨pk, pv⟩ := p
      by_cases h : pk = k
      · subst h; simp [alookup_cons]
      · rw [alookup_cons, if_neg h]
        simp only [List.map_cons, List.mem_cons]
        constructor
        · intro hs; exact Or.inr (ih.mp hs)
        · intro hm
          rcases hm with hm | hm
          · exact absurd hm.symm h
          · exact ih.mpr hm

/-- The step order stated by the spec: the entry step first when it is
present in `steps`, then the remaining step ids in ascending lexicographic
order, de-duplicated. -/
def specOrderedStepIds (g : Graph) : List String :=
  let keys := sortStrings (stepKeys g)
  match g.entry_step with
  | some e =>
      if (alookup g.steps e).isSome then e :: keys.filter (fun k => decide (k ≠ e))
      else keys
  | none => keys

theorem filter_not_mem_nil (ks : List String) :
    ks.filter (fun k => decide (k ∉ ([] : List String))) = ks := by
  apply List.filter_eq_self.mpr
  intro a _
  simp

theorem orderedStepIds_eq_spec (g : Graph) (hnd : (stepKeys g).Nodup) :
    orderedStepIds g = specOrderedStepIds g := by
  have hks : (sortStrings (stepKeys g)).Nodup := nodup_sortStrings hnd
  unfold orderedStepIds specOrderedStepIds
  cases hent : g.entry_step with
  | none =>
      simp only []
      rw [dedupAppend_nodup [] _ hks, filter_not_mem_nil]
      rfl
  | some e =>
      simp only []
      by_cases hmem : (alookup g.steps e).isSome
      · by_cases hne : e = ""
        · subst hne
          rw [if_neg (by simp), if_pos hmem]
          rw [dedupAppend_nodup [] _ hks, filter_not_mem_nil]
          have hmem' : "" ∈ sortStrings (stepKeys g) := by
            rw [mem_sortStrings]
            exact (alookup_isSome_iff_mem _ _).mp hmem
          simpa using sorted_nodup_empty_head _ (pairwise_sortStrings _) hks hmem'
        · rw [if_pos ⟨hne, hmem⟩, if_pos hmem]
          rw [dedupAppend_nodup [e] _ hks]
          have : (sortStrings (stepKeys g)).filter (fun k => decide (k ∉ [e])) =
              (sortStrings (stepKeys g)).filter (fun k => decide (k ≠ e)) := by
            apply List.filter_congr
            intro x _
            simp [List.mem_singleton]
          rw [this]
          rfl
      · rw [if_neg (by intro hc; exact hmem hc.2), if_neg hmem]
        rw [dedupAppend_nodup [] _ hks, filter_not_mem_nil]
        rfl

/-- Claim C6: the ticker selects the first runnable step — own state not
`succeeded` and every dep `succeeded` — in the order: `entry_step` first
when present in `steps`, then the remaining step ids in ascending
lexicographic order, de-duplicated; `none` when no step qualifies.
(`steps` is a Python dict, so its key list has no duplicates.) -/
theorem C6_step_selection (state : RunState) (g : Graph)
    (hnd : (stepKeys g).Nodup) :
    _select_next_step_id state g
      = (specOrderedStepIds g).find? (runnableStep state g) := by
  unfold _select_next_step_id
  rw [orderedStepIds_eq_spec g hnd]

def c6graph : Graph :=
  ⟨some "b", [("a", ⟨["b"], some "noop"⟩), ("b", ⟨[], some "noop"⟩)]⟩

def c6state : RunState :=
  { status := some "running", started_at := some "t0", finished_at := none,
    last_error := none, run_graph := c6graph, step_states := [] }

/-- Witness for C6: on a concrete two-step graph with `entry_step = "b"`,
the selection equals the first runnable step of the spec order, namely the
entry step `"b"`. -/
theorem C6_step_selection_witness :
    _select_next_step_id c6state c6graph
        = (specOrderedStepIds c6graph).find? (runnableStep c6state c6graph) ∧
    _select_next_step_id c6state c6graph = some "b" :=
  ⟨C6_step_selection c6state c6graph (by decide), by decide⟩

def c5graph : Graph := ⟨some "a", [("a", ⟨[], some "noop"⟩)]⟩

def c5state : RunState :=
  { status := some "queued", started_at := none, finished_at := none,
    last_error := none, run_graph := c5graph, step_states := [] }

/-- Witness for C5: ticking a fresh queued run with one noop step marks that
step succeeded (or terminates the run). -/
theorem C5_tick_progress_witness :
    (alookup (tick_run none "t1" "r1" c5state).state.step_states "a"
        = some ⟨"succeeded", "t1"⟩ ∧
      stepStatusOf c5state.step_states "a" ≠ some "succeeded" ∧
      ∀ k, k ≠ "a" →
        alookup (tick_run none "t1" "r1" c5state).state.step_states k
          = alookup c5state.step_states k) ∨
    pyLower ((tick_run none "t1" "r1" c5state).state.status.getD "")
      ∈ terminalStatuses :=
  C5_tick_progress none "t1" "r1" c5state "a" (Or.inl rfl) (fun _ => rfl)
    (by decide) (by decide) (by intro p hp; exact Option.noConfusion hp)

def c10graph : Graph := ⟨some "s", [("s", ⟨[], none⟩)]⟩

def c10state : RunState :=
  { status := some "queued", started_at := none, finished_at := none,
    last_error := none, run_graph := c10graph, step_states := [] }

/-- Witness for C10: a step whose definition carries no `kind` is executed
as a noop on a concrete run. -/
theorem C10_missing_kind_is_noop_witness :
    alookup (tick_run none "t2" "r2" c10state).state.step_states "s"
        = some ⟨"succeeded", "t2"⟩ ∧
    stepSucceededEv "r2" "s" ∈ (tick_run none "t2" "r2" c10state).events ∧
    ∀ e ∈ (tick_run none "t2" "r2" c10state).events, e.event_type ≠ "STEP_FAILED" :=
  C10_missing_kind_is_noop none "t2" "r2" c10state "s" (by decide) (by decide)
    (by decide) (Or.inl (by decide)) (by intro p hp; exact Option.noConfusion hp)

/-- Witness for C3 (amended) at concrete inputs: the two independent
derivations evaluated, and the overlay coinciding with the flat-key
derivation when the flat key is present. -/
theorem C3_lane_enabled_split_witness :
    lane_enabled c3blob "local" "default"
        = (alookup c3blob.lanes ("local" ++ ":" ++ "default")).getD true ∧
    specOverlayLaneEnabled c3blob c3flat "local" "default"
        = worker_status_lane_enabled c3flat "local" "default" :=
  ⟨(C3_lane_enabled_split c3blob c3flat "local" "default").1,
   (C3_lane_enabled_split c3blob c3flat "local" "default").2.2.2 true (by decide)⟩

end ForgeV2
